import Mathlib

/-!
# The gin process supervisor (`lib/runner.go`)

A shallow embedding of the `runner` type of `lib/runner.go` and of its
operations `NewRunner`, `Run`, `Info`, `SetWriter`, `Kill`, `Exited`, `runBin`
and `needsRefresh`, followed by theorems about them.

Modelling conventions.

* The `runner` struct becomes the structure `runner`; the mutex field is left
  out, because the embedding runs one call at a time (`Lock`/`Unlock` are then
  no-ops).
* A `*exec.Cmd` is a `Cmd` value carrying the address `addr` it was allocated
  at (pointer identity), its `Process` and its `ProcessState`.
* Everything the operating system decides during one call (the result of
  `os.Stat`, of `Signal`, of `Process.Kill`, of the pipes, of `Start`, which
  arm of the `select` fires, the clock) is read from an `Env` record, so a
  theorem quantified over `Env` covers every outcome.
* The OS-visible actions a call performs are appended to `State.events`.
* The polling loop of `Run` takes fuel: `none` means the loop did not finish
  within the given number of iterations.
-/

namespace Gin

/-- Go `error` values that are not nil. -/
abbrev Error := String

/-- Instants of `time.Time`, as a number of clock ticks. -/
abbrev Time := Nat

/-- The part of `os.ProcessState` the runner reads. `Cmd.ProcessState` is nil
until `Wait` has returned, so a `ProcessState` exists only for a process that
has terminated. `exited` is the result of `Exited()`, which package `os`
documents as true when the program ended by calling exit and false when it
was terminated by a signal. -/
structure ProcessState where
  exited : Bool
deriving DecidableEq, Repr

/-- An `os.Process`: the OS-level process reference. -/
structure Process where
  pid : Nat
deriving DecidableEq, Repr

/-- An `exec.Cmd` behind a pointer: `addr` is the pointer, `args` is `Cmd.Args`,
`process` is `Cmd.Process` and `processState` is `Cmd.ProcessState`
(`none` is Go's nil). -/
structure Cmd where
  addr : Nat
  args : List String
  process : Option Process
  processState : Option ProcessState
deriving DecidableEq, Repr

/-- An `io.Writer`: `ioutil.Discard` or a sink installed by the caller. -/
inductive Writer where
  | discard
  | sink (id : Nat)
deriving DecidableEq, Repr

/-- The `runner` struct (without `mux`). -/
structure runner where
  bin : String
  args : List String
  writer : Writer
  command : Option Cmd
  starttime : Time
  status : String
deriving DecidableEq, Repr

/-- The part of `os.FileInfo` the runner reads: `ModTime()`. -/
structure FileInfo where
  modTime : Time
deriving DecidableEq, Repr

/-- OS-visible actions, in the order the code performs them. -/
inductive Event where
  /-- The waiter `go func() { r.command.Wait(); close(done) }()` of `Kill`. -/
  | spawnWait (addr : Nat)
  /-- The call `r.command.Process.Signal(os.Interrupt)`. -/
  | signalInterrupt (pid : Nat)
  /-- The call `r.command.Process.Kill()`. -/
  | processKill (pid : Nat)
  /-- The `time.After(3 * time.Second)` arm of the `select` fired. -/
  | timeout
  /-- The `done` arm of the `select` fired. -/
  | done
  /-- The call `log.Println("failed to kill: ", err)`. -/
  | logKillFailed (err : Error)
  /-- The call `exec.Command(r.bin, r.args...)`, allocated at `addr`. -/
  | command (addr : Nat) (args : List String)
  /-- The call `log.Printf("First: %+v", r)`. -/
  | logFirst
  /-- The call `r.command.StdoutPipe()`. -/
  | stdoutPipe
  /-- The call `r.command.StderrPipe()`. -/
  | stderrPipe
  /-- The call `r.command.Start()`. -/
  | start
  /-- The copier `go io.Copy(r.writer, stdout)`. -/
  | copyStdout (w : Writer)
  /-- The copier `go io.Copy(r.writer, stderr)`. -/
  | copyStderr (w : Writer)
  /-- The call `log.Printf("Second: %+v", r)`. -/
  | logSecond
  /-- The reaper `go r.command.Wait()` of `runBin`. -/
  | spawnReaper (addr : Nat)
  /-- The call `time.Sleep(ms * time.Millisecond)`. -/
  | sleep (ms : Nat)
deriving DecidableEq, Repr

/-- The runner together with what surrounds it: the log of OS-visible actions
performed so far and the next free `exec.Cmd` address. -/
structure State where
  r : runner
  events : List Event
  nextAddr : Nat
deriving DecidableEq, Repr

/-- Outcomes of the operating system during one call. -/
structure Env where
  /-- Whether `runtime.GOOS == "windows"`. -/
  windows : Bool
  /-- The result of `os.Stat`, per path. -/
  stat : String → Except Error FileInfo
  /-- Error of the soft request (`Signal(os.Interrupt)`, or `Kill()` on windows). -/
  softErr : Option Error
  /-- In the `select` of `Kill`: `done` is received before the 3 second timer. -/
  doneFirst : Bool
  /-- Error of the forced `Process.Kill()` after the timeout. -/
  killErr : Option Error
  /-- Error of `StdoutPipe()`. -/
  stdoutPipeErr : Option Error
  /-- Error of `StderrPipe()`. -/
  stderrPipeErr : Option Error
  /-- Error of `Start()`. -/
  startErr : Option Error
  /-- The pid of the process `Start()` creates. -/
  pid : Nat
  /-- The reading of `time.Now()` in `runBin`. -/
  now : Time
  /-- What the background `go r.command.Wait()` has stored in
  `Cmd.ProcessState` by the time `runBin` returns (`none`: still running). -/
  reaped : Option ProcessState

/-- Append an action to the log. -/
def State.emit (s : State) (e : Event) : State :=
  { s with events := s.events ++ [e] }

/-- The constructor `NewRunner(bin, args...)`; `now` is the reading of `time.Now()`. -/
def NewRunner (now : Time) (bin : String) (args : List String) : State :=
  { r := { bin := bin, args := args, writer := Writer.discard, command := none,
           starttime := now, status := "new" },
    events := [], nextAddr := 0 }

/-- The method `(r *runner) Info()`: `os.Stat(r.bin)`. -/
def Info (env : Env) (r : runner) : Except Error FileInfo :=
  env.stat r.bin

/-- The method `(r *runner) SetWriter(writer)`. -/
def SetWriter (writer : Writer) (s : State) : State :=
  { s with r := { s.r with writer := writer } }

/-- The method `(r *runner) needsRefresh()`; `After` is strict. -/
def needsRefresh (env : Env) (r : runner) : Bool :=
  match Info env r with
  | Except.error _ => false
  | Except.ok info => decide (r.starttime < info.modTime)

/-- The method `(r *runner) Exited()`. -/
def Exited (r : runner) : Bool :=
  match r.command with
  | none => false
  | some c =>
    match c.processState with
    | none => false
    | some ps => ps.exited

/-- The soft termination request of `Kill`: `Process.Kill()` when
`runtime.GOOS == "windows"`, `Process.Signal(os.Interrupt)` otherwise. -/
def softRequest (env : Env) (p : Process) : Event :=
  if env.windows then Event.processKill p.pid else Event.signalInterrupt p.pid

/-- The guard `r.command != nil && r.command.Process != nil` of `Kill`. -/
def hasProcess (r : runner) : Bool :=
  match r.command with
  | none => false
  | some c => c.process.isSome

/-- The method `(r *runner) Kill()`: the returned error (`none` is nil) and the state
afterwards. -/
def Kill (env : Env) (s : State) : Option Error × State :=
  match s.r.command with
  | none => (none, s)
  | some c =>
    match c.process with
    | none => (none, s)
    | some p =>
      let s1 := s.emit (Event.spawnWait c.addr)
      -- Trying a "soft" kill first
      let s2 := s1.emit (softRequest env p)
      match env.softErr with
      | some err => (some err, s2)
      | none =>
        -- Wait for the process to die or hard kill after 3 sec
        let s3 :=
          if env.doneFirst then s2.emit Event.done
          else
            let s4 := (s2.emit Event.timeout).emit (Event.processKill p.pid)
            match env.killErr with
            | some err => s4.emit (Event.logKillFailed err)
            | none => s4
        (none, { s3 with r := { s3.r with command := none } })

/-- The value of `exec.Command(r.bin, r.args...)`: a command at a fresh address
that has not been started (`Process` and `ProcessState` are nil). -/
def newCommand (s : State) : Cmd :=
  { addr := s.nextAddr, args := s.r.bin :: s.r.args,
    process := none, processState := none }

/-- The method `(r *runner) runBin()`: the returned error and the state afterwards. -/
def runBin (env : Env) (s : State) : Option Error × State :=
  let c : Cmd := newCommand s
  let s1 : State :=
    { r := { s.r with status := "starting", command := some c },
      events := s.events ++ [Event.command c.addr c.args, Event.logFirst],
      nextAddr := s.nextAddr + 1 }
  let s2 := s1.emit Event.stdoutPipe
  match env.stdoutPipeErr with
  | some err => (some err, { s2 with r := { s2.r with status := "error" } })
  | none =>
    let s3 := s2.emit Event.stderrPipe
    match env.stderrPipeErr with
    | some err => (some err, { s3 with r := { s3.r with status := "error" } })
    | none =>
      let s4 := s3.emit Event.start
      match env.startErr with
      | some err => (some err, { s4 with r := { s4.r with status := "error" } })
      | none =>
        let started : Cmd := { c with process := some { pid := env.pid },
                                      processState := env.reaped }
        (none,
          { r := { s4.r with command := some started, starttime := env.now,
                             status := "up" },
            events := s4.events ++
              [Event.copyStdout s4.r.writer, Event.copyStderr s4.r.writer,
               Event.logSecond, Event.spawnReaper c.addr, Event.sleep 1000],
            nextAddr := s4.nextAddr })

/-- The loop `for r.status == "starting" { time.Sleep(250 * time.Millisecond) }`
of `Run`, allowed at most `fuel` iterations; `none` when the loop is still
running after them. -/
def pollStarting : Nat → State → Option State
  | fuel, s =>
    if s.r.status = "starting" then
      match fuel with
      | 0 => none
      | n + 1 => pollStarting n (s.emit (Event.sleep 250))
    else some s

/-- What `Run` returns: the handle, the error, and the state afterwards. -/
structure RunResult where
  cmd : Option Cmd
  err : Option Error
  st : State
deriving DecidableEq, Repr

/-- The part of `Run` after the polling loop:
`if r.command == nil || r.Exited() { ... } else { ... }`. -/
def launchOrReuse (env : Env) (s : State) : RunResult :=
  if s.r.command.isNone || Exited s.r then
    let res := runBin env s
    { cmd := res.2.r.command, err := res.1, st := res.2 }
  else
    { cmd := s.r.command, err := none, st := s }

/-- The part of `Run` before the lock: `if r.needsRefresh() { r.Kill() }`
(the error of `Kill` is dropped). -/
def refresh (env : Env) (s : State) : State :=
  if needsRefresh env s.r then (Kill env s).2 else s

/-- The method `(r *runner) Run()`, with fuel for the polling loop. -/
def Run (fuel : Nat) (env : Env) (s : State) : Option RunResult :=
  match pollStarting fuel (refresh env s) with
  | none => none
  | some s2 => some (launchOrReuse env s2)

/-- The background `go r.command.Wait()` of `runBin` finishing between two
calls: `Wait` stores the `ProcessState` in the started command. -/
def reap (ps : ProcessState) (s : State) : State :=
  match s.r.command with
  | none => s
  | some c =>
    if c.process.isSome then
      { s with r := { s.r with command := some { c with processState := some ps } } }
    else s

/-- What can happen to a runner between its construction and now: a completed
call of one of the four operations, or the reaper finishing. -/
inductive Action where
  | run (fuel : Nat)
  | kill
  | setWriter (writer : Writer)
  | info
  | reaped (ps : ProcessState)
deriving DecidableEq, Repr

/-- One action, under the OS outcomes `env`; `none` when a `Run` does not
complete. `Info` only reads. -/
def step (env : Env) : Action → State → Option State
  | Action.run fuel, s => (Run fuel env s).map RunResult.st
  | Action.kill, s => some (Kill env s).2
  | Action.setWriter writer, s => some (SetWriter writer s)
  | Action.info, s => some s
  | Action.reaped ps, s => some (reap ps s)

/-- A sequence of actions, each with its own OS outcomes. -/
def steps : List (Action × Env) → State → Option State
  | [], s => some s
  | (a, env) :: rest, s =>
    match step env a s with
    | none => none
    | some s2 => steps rest s2

/-- States reachable from `NewRunner` by completed calls. -/
def Reachable (s : State) : Prop :=
  ∃ (now : Time) (bin : String) (args : List String) (calls : List (Action × Env)),
    steps calls (NewRunner now bin args) = some s

/-- The statuses a runner has between calls. -/
def settled (status : String) : Prop :=
  status = "new" ∨ status = "up" ∨ status = "error"

/-! ## Concrete runners and OS outcomes used in the examples -/

/-- OS outcomes where everything succeeds and the binary was last written at
time `mtime`. -/
def envOk (mtime : Time) : Env :=
  { windows := false, stat := fun _ => Except.ok { modTime := mtime },
    softErr := none, doneFirst := true, killErr := none,
    stdoutPipeErr := none, stderrPipeErr := none, startErr := none,
    pid := 4242, now := 200, reaped := none }

/-- OS outcomes where the binary does not exist: `os.Stat` and `Start` fail. -/
def envMissing : Env :=
  { envOk 0 with
    stat := fun _ => Except.error "stat ./app: no such file or directory",
    startErr := some "fork/exec ./app: no such file or directory" }

/-- OS outcomes where the binary was rebuilt at time 150 and the soft
termination request cannot be sent. -/
def envSoftFail : Env :=
  { envOk 150 with softErr := some "operation not permitted" }

/-- OS outcomes where the binary was rebuilt at time 150 and starting it
fails. -/
def envStartFail : Env :=
  { envOk 150 with startErr := some "fork/exec ./app: text file busy" }

/-- OS outcomes where the child ignores the interrupt and the forced kill
fails too. -/
def envKillFail : Env :=
  { envOk 150 with doneFirst := false, killErr := some "os: process already finished" }

/-- A runner made at time 10 for `./app`. -/
def fresh : State := NewRunner 10 "./app" ["-p", "3000"]

/-- A runner whose child, pid 77, was started at time 100 and is running. -/
def running : State :=
  { r := { bin := "./app", args := [], writer := Writer.discard,
           command := some { addr := 0, args := ["./app"],
                             process := some { pid := 77 }, processState := none },
           starttime := 100, status := "up" },
    events := [], nextAddr := 1 }

/-- A runner holding a command that was never started. -/
def neverStarted : State :=
  { r := { bin := "./app", args := [], writer := Writer.discard,
           command := some { addr := 0, args := ["./app"],
                             process := none, processState := none },
           starttime := 10, status := "error" },
    events := [], nextAddr := 1 }

/-- The runner `fresh` after its first launch, once the child has ended by
calling exit and the reaper has stored its `ProcessState`. -/
def childExited : State :=
  reap { exited := true } (runBin (envOk 5) fresh).2

/-- The runner `fresh` after its first launch, once the child has been
terminated by a signal and the reaper has stored its `ProcessState`. -/
def childKilled : State :=
  reap { exited := false } (runBin (envOk 5) fresh).2

/-! ## Lemmas about `Kill` -/

theorem hasProcess_false_iff (r : runner) :
    hasProcess r = false ↔
      (r.command = none ∨ ∃ c, r.command = some c ∧ c.process = none) := by
  unfold hasProcess
  cases hc : r.command with
  | none => simp
  | some c => cases hp : c.process <;> simp [hp]

theorem hasProcess_true_iff (r : runner) :
    hasProcess r = true ↔ ∃ c p, r.command = some c ∧ c.process = some p := by
  unfold hasProcess
  cases hc : r.command with
  | none => simp
  | some c => cases hp : c.process <;> simp [hp]

theorem Kill_of_not_hasProcess (env : Env) (s : State) (h : hasProcess s.r = false) :
    Kill env s = (none, s) := by
  unfold hasProcess at h
  unfold Kill
  cases hc : s.r.command with
  | none => rfl
  | some c =>
    cases hp : c.process with
    | none => simp [hp]
    | some p => simp [hc, hp] at h

theorem Kill_soft_failed (env : Env) (s : State) (c : Cmd) (p : Process) (err : Error)
    (hc : s.r.command = some c) (hp : c.process = some p) (he : env.softErr = some err) :
    Kill env s =
      (some err,
        { s with events := s.events ++ [Event.spawnWait c.addr, softRequest env p] }) := by
  simp [Kill, hc, hp, he, State.emit]

theorem Kill_soft_sent (env : Env) (s : State) (c : Cmd) (p : Process)
    (hc : s.r.command = some c) (hp : c.process = some p) (he : env.softErr = none) :
    (Kill env s).1 = none ∧ (Kill env s).2.r = { s.r with command := none } ∧
      (Kill env s).2.nextAddr = s.nextAddr ∧
      ∃ evs, (Kill env s).2.events =
        s.events ++ Event.spawnWait c.addr :: softRequest env p :: evs := by
  unfold Kill
  simp only [hc, hp, he]
  refine ⟨trivial, ?_, ?_, ?_⟩
  · cases env.doneFirst <;> cases env.killErr <;> simp [State.emit]
  · cases env.doneFirst <;> cases env.killErr <;> simp [State.emit]
  · cases env.doneFirst <;> cases env.killErr <;> simp [State.emit]

theorem Kill_status (env : Env) (s : State) :
    (Kill env s).2.r.status = s.r.status := by
  cases hh : hasProcess s.r with
  | false => rw [Kill_of_not_hasProcess env s hh]
  | true =>
    obtain ⟨c, p, hc, hp⟩ := (hasProcess_true_iff s.r).1 hh
    cases he : env.softErr with
    | some err => rw [Kill_soft_failed env s c p err hc hp he]
    | none => rw [(Kill_soft_sent env s c p hc hp he).2.1]

theorem Kill_nextAddr (env : Env) (s : State) :
    (Kill env s).2.nextAddr = s.nextAddr := by
  cases hh : hasProcess s.r with
  | false => rw [Kill_of_not_hasProcess env s hh]
  | true =>
    obtain ⟨c, p, hc, hp⟩ := (hasProcess_true_iff s.r).1 hh
    cases he : env.softErr with
    | some err => rw [Kill_soft_failed env s c p err hc hp he]
    | none => exact (Kill_soft_sent env s c p hc hp he).2.2.1

/-! ## Claims about `Kill` -/

/-- C5: when no handle exists, or the handle has no OS process, `Kill` returns
nil and leaves the whole state, the log of OS actions included, as it was (so
nothing is signalled); and after any `Kill` that returned nil, a second `Kill`
is such a no-op under every OS outcome. -/
theorem Kill_noop_without_process (env env2 : Env) (s : State) :
    ((s.r.command = none ∨ ∃ c, s.r.command = some c ∧ c.process = none) →
        Kill env s = (none, s)) ∧
    ((Kill env s).1 = none →
        hasProcess (Kill env s).2.r = false ∧
        Kill env2 (Kill env s).2 = (none, (Kill env s).2)) := by
  refine ⟨fun h => Kill_of_not_hasProcess env s ((hasProcess_false_iff s.r).2 h), ?_⟩
  intro hnil
  have key : hasProcess (Kill env s).2.r = false := by
    cases hh : hasProcess s.r with
    | false => rw [Kill_of_not_hasProcess env s hh]; exact hh
    | true =>
      obtain ⟨c, p, hc, hp⟩ := (hasProcess_true_iff s.r).1 hh
      cases he : env.softErr with
      | some err =>
        rw [Kill_soft_failed env s c p err hc hp he] at hnil
        simp at hnil
      | none =>
        rw [(Kill_soft_sent env s c p hc hp he).2.1]
        rfl
  exact ⟨key, Kill_of_not_hasProcess env2 _ key⟩

/-- Witness for C5: a runner without a handle, one whose handle was never
started, and a second `Kill` after a successful one. -/
theorem Kill_noop_without_process_witness :
    Kill envSoftFail fresh = (none, fresh) ∧
    Kill envSoftFail neverStarted = (none, neverStarted) ∧
    Kill envSoftFail (Kill envKillFail running).2 = (none, (Kill envKillFail running).2) :=
  ⟨(Kill_noop_without_process envSoftFail envSoftFail fresh).1 (Or.inl rfl),
   (Kill_noop_without_process envSoftFail envSoftFail neverStarted).1
     (Or.inr ⟨_, rfl, rfl⟩),
   ((Kill_noop_without_process envKillFail envSoftFail running).2 rfl).2⟩

/-- C7: `Kill` returns an error exactly when a handle with an OS process
exists and sending the soft request fails; then the error is the send error,
and the only actions performed are spawning the waiter and the soft request
(no timeout, no forced kill). In every other case, a failed forced kill after
the timeout included, it returns nil. -/
theorem Kill_error_iff (env : Env) (s : State) :
    ((Kill env s).1 ≠ none ↔ (hasProcess s.r = true ∧ env.softErr ≠ none)) ∧
    (∀ c p err, s.r.command = some c → c.process = some p → env.softErr = some err →
        Kill env s =
          (some err,
            { s with events := s.events ++ [Event.spawnWait c.addr, softRequest env p] })) ∧
    (∀ c p, s.r.command = some c → c.process = some p → env.softErr = none →
        (Kill env s).1 = none ∧
        (env.doneFirst = false →
          ∃ evs, (Kill env s).2.events =
            s.events ++ [Event.spawnWait c.addr, softRequest env p, Event.timeout,
              Event.processKill p.pid] ++ evs)) := by
  refine ⟨?_, fun c p err hc hp he => Kill_soft_failed env s c p err hc hp he, ?_⟩
  · cases hh : hasProcess s.r with
    | false => rw [Kill_of_not_hasProcess env s hh]; simp
    | true =>
      obtain ⟨c, p, hc, hp⟩ := (hasProcess_true_iff s.r).1 hh
      cases he : env.softErr with
      | some err => rw [Kill_soft_failed env s c p err hc hp he]; simp
      | none => rw [(Kill_soft_sent env s c p hc hp he).1]; simp
  · intro c p hc hp he
    refine ⟨(Kill_soft_sent env s c p hc hp he).1, fun hd => ?_⟩
    unfold Kill
    simp only [hc, hp, he, hd]
    cases env.killErr <;> simp [State.emit]

/-- Witness for C7: a failed soft request on a running child, and a failed
forced kill after the timeout. -/
theorem Kill_error_iff_witness :
    Kill envSoftFail running =
      (some "operation not permitted",
        { running with events := [Event.spawnWait 0, Event.signalInterrupt 77] }) ∧
    (Kill envKillFail running).1 = none :=
  ⟨(Kill_error_iff envSoftFail running).2.1 _ _ _ rfl rfl rfl,
   ((Kill_error_iff envKillFail running).2.2 _ _ rfl rfl rfl).1⟩

/-- C1 as stated fails: when the soft request cannot be sent, `Kill` returns
the error and the handle is still there; and a handle that was never started
survives a `Kill` that returns nil. -/
theorem Kill_can_keep_handle :
    (Kill envSoftFail running).1 = some "operation not permitted" ∧
    (Kill envSoftFail running).2.r.command = running.r.command ∧
    running.r.command ≠ none ∧
    (Kill envSoftFail neverStarted).1 = none ∧
    (Kill envSoftFail neverStarted).2.r.command ≠ none := by
  decide

/-- C1, amended: under every outcome of the wait and of the forced kill, the
handle is none after `Kill` exactly when there was no handle on entry or the
handle had an OS process and the soft request was sent without error; and
then `Kill` returned nil. -/
theorem Kill_clears_handle_iff (env : Env) (s : State) :
    ((Kill env s).2.r.command = none ↔
      (s.r.command = none ∨ (hasProcess s.r = true ∧ env.softErr = none))) ∧
    ((Kill env s).2.r.command = none → (Kill env s).1 = none) := by
  cases hh : hasProcess s.r with
  | false =>
    rw [Kill_of_not_hasProcess env s hh]
    simp
  | true =>
    obtain ⟨c, p, hc, hp⟩ := (hasProcess_true_iff s.r).1 hh
    cases he : env.softErr with
    | some err =>
      rw [Kill_soft_failed env s c p err hc hp he]
      simp [hc]
    | none =>
      obtain ⟨h1, h2, -, -⟩ := Kill_soft_sent env s c p hc hp he
      rw [h2, h1]
      simp

/-- Witness for the amended C1: the child ignores the interrupt and the
forced kill fails, and the handle is cleared all the same. -/
theorem Kill_clears_handle_iff_witness :
    (Kill envKillFail running).2.r.command = none ∧ (Kill envKillFail running).1 = none :=
  ⟨(Kill_clears_handle_iff envKillFail running).1.2 (Or.inr ⟨rfl, rfl⟩),
   (Kill_clears_handle_iff envKillFail running).2 rfl⟩

/-! ## Lemmas about `runBin` and `Run` -/

theorem pollStarting_of_ne (fuel : Nat) (s : State) (h : s.r.status ≠ "starting") :
    pollStarting fuel s = some s := by
  unfold pollStarting
  simp [h]

theorem pollStarting_some (fuel : Nat) (s s2 : State) (h : pollStarting fuel s = some s2) :
    s2 = s ∧ s.r.status ≠ "starting" := by
  induction fuel generalizing s with
  | zero =>
    unfold pollStarting at h
    by_cases hs : s.r.status = "starting"
    · simp [hs] at h
    · simp [hs] at h
      exact ⟨h.symm, hs⟩
  | succ n ih =>
    unfold pollStarting at h
    by_cases hs : s.r.status = "starting"
    · simp only [hs, if_true] at h
      have h2 := (ih _ h).2
      exact absurd hs h2
    · simp [hs] at h
      exact ⟨h.symm, hs⟩

theorem refresh_status (env : Env) (s : State) :
    (refresh env s).r.status = s.r.status := by
  unfold refresh
  split
  · exact Kill_status env s
  · rfl

theorem refresh_nextAddr (env : Env) (s : State) :
    (refresh env s).nextAddr = s.nextAddr := by
  unfold refresh
  split
  · exact Kill_nextAddr env s
  · rfl

theorem refresh_of_not_stale (env : Env) (s : State) (h : needsRefresh env s.r = false) :
    refresh env s = s := by
  simp [refresh, h]

theorem Run_of_not_starting (fuel : Nat) (env : Env) (s : State)
    (h : s.r.status ≠ "starting") :
    Run fuel env s = some (launchOrReuse env (refresh env s)) := by
  unfold Run
  rw [pollStarting_of_ne fuel _ (by rw [refresh_status]; exact h)]

theorem Run_some (fuel : Nat) (env : Env) (s : State) (res : RunResult)
    (h : Run fuel env s = some res) :
    s.r.status ≠ "starting" ∧ res = launchOrReuse env (refresh env s) := by
  unfold Run at h
  cases hp : pollStarting fuel (refresh env s) with
  | none => simp [hp] at h
  | some s2 =>
    obtain ⟨h2, h3⟩ := pollStarting_some fuel _ s2 hp
    rw [refresh_status] at h3
    simp [hp, h2] at h
    exact ⟨h3, h.symm⟩

theorem runBin_started (env : Env) (s : State) (h1 : env.stdoutPipeErr = none)
    (h2 : env.stderrPipeErr = none) (h3 : env.startErr = none) :
    runBin env s =
      (none,
        { r := { s.r with
                 command := some { newCommand s with process := some { pid := env.pid },
                                                     processState := env.reaped },
                 starttime := env.now, status := "up" },
          events := s.events ++
            [Event.command s.nextAddr (s.r.bin :: s.r.args), Event.logFirst,
             Event.stdoutPipe, Event.stderrPipe, Event.start,
             Event.copyStdout s.r.writer, Event.copyStderr s.r.writer,
             Event.logSecond, Event.spawnReaper s.nextAddr, Event.sleep 1000],
          nextAddr := s.nextAddr + 1 }) := by
  simp [runBin, h1, h2, h3, State.emit, newCommand]

theorem runBin_failed (env : Env) (s : State) (h : (runBin env s).1 ≠ none) :
    (runBin env s).2.r = { s.r with command := some (newCommand s), status := "error" } := by
  unfold runBin at h ⊢
  cases h1 : env.stdoutPipeErr with
  | some e => simp [State.emit]
  | none =>
    cases h2 : env.stderrPipeErr with
    | some e => simp [State.emit]
    | none =>
      cases h3 : env.startErr with
      | some e => simp [State.emit]
      | none => simp [h1, h2, h3] at h

theorem runBin_start_failed (env : Env) (s : State) (err : Error)
    (h1 : env.stdoutPipeErr = none) (h2 : env.stderrPipeErr = none)
    (h3 : env.startErr = some err) :
    runBin env s =
      (some err,
        { r := { s.r with command := some (newCommand s), status := "error" },
          events := s.events ++
            [Event.command s.nextAddr (s.r.bin :: s.r.args), Event.logFirst,
             Event.stdoutPipe, Event.stderrPipe, Event.start],
          nextAddr := s.nextAddr + 1 }) := by
  simp [runBin, h1, h2, h3, State.emit, newCommand]

theorem runBin_status (env : Env) (s : State) :
    (runBin env s).2.r.status = "up" ∨ (runBin env s).2.r.status = "error" := by
  unfold runBin
  cases env.stdoutPipeErr <;> cases env.stderrPipeErr <;> cases env.startErr <;> simp

theorem runBin_nextAddr (env : Env) (s : State) :
    (runBin env s).2.nextAddr = s.nextAddr + 1 := by
  unfold runBin
  cases env.stdoutPipeErr <;> cases env.stderrPipeErr <;> cases env.startErr <;>
    simp [State.emit]

theorem launchOrReuse_launch (env : Env) (s : State)
    (h : s.r.command = none ∨ Exited s.r = true) :
    launchOrReuse env s =
      { cmd := (runBin env s).2.r.command, err := (runBin env s).1, st := (runBin env s).2 } := by
  unfold launchOrReuse
  have : (s.r.command.isNone || Exited s.r) = true := by
    rcases h with h | h
    · simp [h]
    · simp [h]
  simp [this]

theorem launchOrReuse_reuse (env : Env) (s : State)
    (h : ¬ (s.r.command = none ∨ Exited s.r = true)) :
    launchOrReuse env s = { cmd := s.r.command, err := none, st := s } := by
  unfold launchOrReuse
  have : (s.r.command.isNone || Exited s.r) = false := by
    cases hc : s.r.command with
    | none => exact absurd (Or.inl hc) h
    | some c =>
      cases he : Exited s.r with
      | true => exact absurd (Or.inr he) h
      | false => rfl
  simp [this]

/-! ## Claims about `Run` -/

theorem Exited_iff (r : runner) :
    Exited r = true ↔
      ∃ c, r.command = some c ∧ c.processState = some { exited := true } := by
  unfold Exited
  cases hc : r.command with
  | none => simp
  | some c =>
    cases hp : c.processState with
    | none => simp [hp]
    | some ps =>
      cases ps with
      | mk e => cases e <;> simp [hp]

theorem runBin_creates (env : Env) (s : State) :
    (∃ c2, (runBin env s).2.r.command = some c2 ∧ c2.addr = s.nextAddr ∧
      c2.args = s.r.bin :: s.r.args) ∧
    ∃ evs, (runBin env s).2.events =
      s.events ++ Event.command s.nextAddr (s.r.bin :: s.r.args) :: Event.logFirst ::
        Event.stdoutPipe :: evs := by
  unfold runBin
  cases env.stdoutPipeErr <;> cases env.stderrPipeErr <;> cases env.startErr <;>
    simp [State.emit, newCommand]

/-- C6, as the code behaves: with the binary not stale and status not
`starting`, `Run` performs a fresh launch (it calls `exec.Command`, logged
first among the new actions, and returns the command created at the fresh
address together with the error of `runBin`) when no handle exists and when
the handle carries a `ProcessState` whose `Exited()` is true. It returns the
existing handle with a nil error, the state and the log unchanged, when the
handle has no `ProcessState`, and also when the handle carries a
`ProcessState` whose `Exited()` is false: a child terminated by a signal has
ended, yet its handle is handed back and nothing is launched. So the state
changes exactly in the first two cases. -/
theorem Run_launch_cases (fuel : Nat) (env : Env) (s : State)
    (hfresh : needsRefresh env s.r = false) (hst : s.r.status ≠ "starting") :
    ((s.r.command = none ∨
        ∃ c, s.r.command = some c ∧ c.processState = some { exited := true }) →
      Run fuel env s =
        some { cmd := (runBin env s).2.r.command, err := (runBin env s).1,
               st := (runBin env s).2 } ∧
      (∃ c2, (runBin env s).2.r.command = some c2 ∧ c2.addr = s.nextAddr ∧
        c2.args = s.r.bin :: s.r.args) ∧
      ∃ evs, (runBin env s).2.events =
        s.events ++ Event.command s.nextAddr (s.r.bin :: s.r.args) :: Event.logFirst ::
          Event.stdoutPipe :: evs) ∧
    (∀ c, s.r.command = some c →
        (c.processState = none ∨ c.processState = some { exited := false }) →
      Run fuel env s = some { cmd := some c, err := none, st := s }) ∧
    (∃ res, Run fuel env s = some res ∧
      (res.st ≠ s ↔
        (s.r.command = none ∨
          ∃ c, s.r.command = some c ∧ c.processState = some { exited := true }))) := by
  have hrun := Run_of_not_starting fuel env s hst
  rw [refresh_of_not_stale env s hfresh] at hrun
  have hcond : (s.r.command = none ∨ Exited s.r = true) ↔
      (s.r.command = none ∨
        ∃ c, s.r.command = some c ∧ c.processState = some { exited := true }) := by
    rw [Exited_iff]
  refine ⟨fun h => ?_, fun c hc hps => ?_, ?_⟩
  · rw [hrun, launchOrReuse_launch env s (hcond.2 h)]
    exact ⟨rfl, runBin_creates env s⟩
  · have hno : ¬ (s.r.command = none ∨ Exited s.r = true) := by
      rw [hcond]
      intro hor
      rcases hor with hn | ⟨c2, hc2, hp2⟩
      · rw [hc] at hn
        exact Option.noConfusion hn
      · rw [hc] at hc2
        have hcc : c = c2 := Option.some.inj hc2
        rw [← hcc] at hp2
        rcases hps with hps | hps
        · rw [hps] at hp2
          exact Option.noConfusion hp2
        · rw [hps] at hp2
          have hb := congrArg ProcessState.exited (Option.some.inj hp2)
          exact Bool.noConfusion hb
    rw [hrun, launchOrReuse_reuse env s hno, hc]
  · refine ⟨_, hrun, ?_⟩
    rw [← hcond]
    by_cases h : s.r.command = none ∨ Exited s.r = true
    · rw [launchOrReuse_launch env s h]
      simp only [h, iff_true]
      intro heq
      have hn := runBin_nextAddr env s
      rw [heq] at hn
      omega
    · rw [launchOrReuse_reuse env s h]
      simp [h]

/-- Witness for C6. A new runner launches. After the first launch: a child
that ended by calling exit is replaced by a command at a fresh address; a
running child is handed back; and a child terminated by a signal, a state
reached from `NewRunner` by a `Run` and the reaper, is handed back with a nil
error although it has ended. -/
theorem Run_launch_cases_witness :
    Run 0 (envOk 5) fresh =
      some { cmd := (runBin (envOk 5) fresh).2.r.command, err := none,
             st := (runBin (envOk 5) fresh).2 } ∧
    (∃ c2, Run 0 (envOk 5) childExited =
        some { cmd := some c2, err := none, st := (runBin (envOk 5) childExited).2 } ∧
      c2.addr = 1 ∧ c2.process = some { pid := 4242 }) ∧
    Run 0 (envOk 50) running = some { cmd := running.r.command, err := none, st := running } ∧
    steps [(Action.run 0, envOk 5), (Action.reaped { exited := false }, envOk 5)] fresh =
      some childKilled ∧
    Run 0 (envOk 5) childKilled =
      some { cmd := some { addr := 0, args := ["./app", "-p", "3000"],
                           process := some { pid := 4242 },
                           processState := some { exited := false } },
             err := none, st := childKilled } :=
  ⟨((Run_launch_cases 0 (envOk 5) fresh rfl (by decide)).1 (Or.inl rfl)).1,
   ⟨_, ((Run_launch_cases 0 (envOk 5) childExited rfl (by decide)).1
          (Or.inr ⟨_, rfl, rfl⟩)).1, rfl, rfl⟩,
   (Run_launch_cases 0 (envOk 50) running rfl (by decide)).2.1 _ rfl (Or.inl rfl),
   rfl,
   (Run_launch_cases 0 (envOk 5) childKilled rfl (by decide)).2.1 _ rfl (Or.inr rfl)⟩

/-- C2, as the code behaves: when `Run` attempts a launch and `Start` fails,
`Run` returns the error of `Start` and status is `error`, but the runner keeps
a handle: the command `runBin` created and never started, which is also the
handle `Run` returns. -/
theorem Run_start_failure_keeps_command (fuel : Nat) (env : Env) (s : State) (err : Error)
    (hst : s.r.status ≠ "starting")
    (hlaunch : (refresh env s).r.command = none ∨ Exited (refresh env s).r = true)
    (hout : env.stdoutPipeErr = none) (herr : env.stderrPipeErr = none)
    (hstart : env.startErr = some err) :
    ∃ res, Run fuel env s = some res ∧ res.err = some err ∧
      res.st.r.status = "error" ∧
      res.st.r.command = some (newCommand (refresh env s)) ∧
      res.cmd = res.st.r.command ∧ res.st.r.command ≠ none ∧
      (newCommand (refresh env s)).process = none := by
  refine ⟨_, Run_of_not_starting fuel env s hst, ?_⟩
  rw [launchOrReuse_launch env _ hlaunch, runBin_start_failed env _ err hout herr hstart]
  simp [newCommand]

/-- Witness for C2: a new runner whose binary does not exist. -/
theorem Run_start_failure_keeps_command_witness :
    ∃ res, Run 0 envMissing fresh = some res ∧
      res.err = some "fork/exec ./app: no such file or directory" ∧
      res.st.r.status = "error" ∧
      res.st.r.command = some (newCommand (refresh envMissing fresh)) ∧
      res.cmd = res.st.r.command ∧ res.st.r.command ≠ none ∧
      (newCommand (refresh envMissing fresh)).process = none :=
  Run_start_failure_keeps_command 0 envMissing fresh _ (by decide) (Or.inl rfl) rfl rfl rfl

/-- C3, as the code behaves: in the state a `Run` with a failed launch leaves
behind, every later `Run`, whatever the OS outcomes (so also when the binary
now exists and would start), creates no command and returns the handle of the
failed attempt, which was never started, with a nil error; the state, status
`error` included, stays as it was. -/
theorem Run_after_failed_launch_reuses (fuel fuel2 : Nat) (env env2 : Env) (s : State)
    (res : RunResult) (hrun : Run fuel env s = some res) (hfail : res.err ≠ none) :
    Run fuel2 env2 res.st = some { cmd := res.st.r.command, err := none, st := res.st } ∧
    (∃ c, res.st.r.command = some c ∧ c.process = none ∧ c.processState = none) ∧
    res.st.r.status = "error" := by
  obtain ⟨-, hres⟩ := Run_some fuel env s res hrun
  have hr : res.st.r =
      { (refresh env s).r with command := some (newCommand (refresh env s)),
                               status := "error" } := by
    by_cases hl : (refresh env s).r.command = none ∨ Exited (refresh env s).r = true
    · rw [launchOrReuse_launch env _ hl] at hres
      have he : (runBin env (refresh env s)).1 ≠ none := by
        rw [hres] at hfail
        exact hfail
      rw [hres]
      exact runBin_failed env _ he
    · rw [launchOrReuse_reuse env _ hl] at hres
      rw [hres] at hfail
      exact absurd rfl hfail
  have hcmd : res.st.r.command = some (newCommand (refresh env s)) := by rw [hr]
  have hstatus : res.st.r.status = "error" := by rw [hr]
  have hnp : hasProcess res.st.r = false := by
    unfold hasProcess
    rw [hcmd]
    rfl
  have hrefresh : refresh env2 res.st = res.st := by
    unfold refresh
    split
    · rw [Kill_of_not_hasProcess env2 _ hnp]
    · rfl
  have hne : res.st.r.status ≠ "starting" := by
    rw [hstatus]
    decide
  have hreuse : ¬ (res.st.r.command = none ∨ Exited res.st.r = true) := by
    intro h
    rcases h with h | h
    · rw [hcmd] at h
      exact Option.noConfusion h
    · unfold Exited at h
      rw [hcmd] at h
      simp [newCommand] at h
  refine ⟨?_, ⟨_, hcmd, rfl, rfl⟩, hstatus⟩
  rw [Run_of_not_starting fuel2 env2 _ hne, hrefresh, launchOrReuse_reuse env2 _ hreuse]

/-- Witness for C3: the binary is missing at the first `Run`; at the second it
exists, is newer than the start time and would start, and `Run` still hands
back the handle that was never started. -/
theorem Run_after_failed_launch_reuses_witness :
    ∃ res, Run 0 envMissing fresh = some res ∧ res.err ≠ none ∧
      Run 0 (envOk 150) res.st =
        some { cmd := some { addr := 0, args := ["./app", "-p", "3000"],
                             process := none, processState := none },
               err := none, st := res.st } ∧
      res.st.r.status = "error" :=
  ⟨launchOrReuse envMissing (refresh envMissing fresh), rfl, by decide,
   (Run_after_failed_launch_reuses 0 0 envMissing (envOk 150) fresh _ rfl (by decide)).1,
   (Run_after_failed_launch_reuses 0 0 envMissing (envOk 150) fresh _ rfl (by decide)).2.2⟩

/-- C4 as stated fails: with a running child and a binary newer than the start
time, `Run` hands back the old handle when the soft request cannot be sent,
and when starting the new binary fails it returns an error with a handle that
has no process and leaves the recorded start time as it was. -/
theorem Run_stale_without_restart :
    needsRefresh envSoftFail running.r = true ∧
    Run 0 envSoftFail running =
      some { cmd := running.r.command, err := none,
             st := { running with events := [Event.spawnWait 0, Event.signalInterrupt 77] } } ∧
    needsRefresh envStartFail running.r = true ∧
    (∃ res, Run 0 envStartFail running = some res ∧
      res.err = some "fork/exec ./app: text file busy" ∧
      res.cmd = some { addr := 1, args := ["./app"], process := none, processState := none } ∧
      res.st.r.starttime = running.r.starttime) := by
  refine ⟨by decide, by decide, by decide, _, rfl, by decide, by decide, by decide⟩

/-- C4, amended: for a runner holding a command with an OS process and status
not `starting`, if the binary is newer than the recorded start time, the soft
request is sent without error, and the pipes and `Start` of the new launch
succeed, then `Run` signals the old process, creates a command at a fresh
address (not the old handle), starts it and returns it with a nil error;
status is `up` and the recorded start time is the clock reading of the new
launch, later than the old one when the clock has advanced. -/
theorem Run_restarts_stale (fuel : Nat) (env : Env) (s : State) (c : Cmd) (p : Process)
    (info : FileInfo)
    (hc : s.r.command = some c) (hp : c.process = some p)
    (haddr : c.addr < s.nextAddr) (hst : s.r.status ≠ "starting")
    (hinfo : Info env s.r = Except.ok info) (hnewer : s.r.starttime < info.modTime)
    (hsoft : env.softErr = none) (hout : env.stdoutPipeErr = none)
    (herr : env.stderrPipeErr = none) (hstart : env.startErr = none)
    (hclock : s.r.starttime < env.now) :
    ∃ res c2, Run fuel env s = some res ∧ res.err = none ∧ res.cmd = some c2 ∧
      res.st.r.command = some c2 ∧ c2.addr = s.nextAddr ∧ c2.addr ≠ c.addr ∧
      c2.process = some { pid := env.pid } ∧
      res.st.r.status = "up" ∧ res.st.r.starttime = env.now ∧
      s.r.starttime < res.st.r.starttime ∧
      ∃ evs, res.st.events =
          s.events ++ Event.spawnWait c.addr :: softRequest env p :: evs ∧
        Event.start ∈ evs := by
  have hstale : needsRefresh env s.r = true := by
    simp [needsRefresh, hinfo, hnewer]
  obtain ⟨-, hkr, hka, evs, hke⟩ := Kill_soft_sent env s c p hc hp hsoft
  have hrefresh : refresh env s = (Kill env s).2 := by simp [refresh, hstale]
  have hlaunch : (Kill env s).2.r.command = none ∨ Exited (Kill env s).2.r = true := by
    left
    rw [hkr]
  refine ⟨_, { newCommand (Kill env s).2 with process := some { pid := env.pid },
                                              processState := env.reaped },
    Run_of_not_starting fuel env s hst, ?_⟩
  rw [hrefresh, launchOrReuse_launch env _ hlaunch, runBin_started env _ hout herr hstart]
  refine ⟨rfl, rfl, rfl, ?_, ?_, rfl, rfl, rfl, hclock, ?_⟩
  · simp [newCommand, hka]
  · simp only [newCommand, hka]
    omega
  · refine ⟨evs ++ [Event.command (Kill env s).2.nextAddr
        ((Kill env s).2.r.bin :: (Kill env s).2.r.args), Event.logFirst,
        Event.stdoutPipe, Event.stderrPipe, Event.start,
        Event.copyStdout (Kill env s).2.r.writer, Event.copyStderr (Kill env s).2.r.writer,
        Event.logSecond, Event.spawnReaper (Kill env s).2.nextAddr, Event.sleep 1000], ?_, ?_⟩
    · simp [hke]
    · simp

/-- Witness for the amended C4: the child started at time 100 is replaced at
time 200 after the binary was rebuilt at time 150. -/
theorem Run_restarts_stale_witness :
    ∃ res c2, Run 0 (envOk 150) running = some res ∧ res.err = none ∧ res.cmd = some c2 ∧
      res.st.r.command = some c2 ∧ c2.addr = 1 ∧ c2.addr ≠ 0 ∧
      c2.process = some { pid := 4242 } ∧
      res.st.r.status = "up" ∧ res.st.r.starttime = 200 ∧
      100 < res.st.r.starttime ∧
      ∃ evs, res.st.events =
          [] ++ Event.spawnWait 0 :: softRequest (envOk 150) { pid := 77 } :: evs ∧
        Event.start ∈ evs :=
  Run_restarts_stale 0 (envOk 150) running _ { pid := 77 } { modTime := 150 }
    rfl rfl (by decide) (by decide) rfl (by decide) rfl rfl rfl rfl (by decide)

/-- C10: `needsRefresh` is true exactly when `os.Stat` of the binary succeeds
and the modification time is strictly after the recorded start time. So when
the stat fails, or the modification time is not after the start time, `Run`
skips `Kill` (it goes to the polling loop in the state it was called in,
whatever `Kill` would have done), and a handle whose process has not exited is
kept and returned with a nil error, the state unchanged. -/
theorem needsRefresh_iff_and_keeps_process (fuel : Nat) (env : Env) (s : State) :
    (needsRefresh env s.r = true ↔
      ∃ info, Info env s.r = Except.ok info ∧ s.r.starttime < info.modTime) ∧
    (((∃ e, Info env s.r = Except.error e) ∨
        (∃ info, Info env s.r = Except.ok info ∧ info.modTime ≤ s.r.starttime)) →
      needsRefresh env s.r = false ∧
      refresh env s = s ∧
      Run fuel env s = (pollStarting fuel s).map (launchOrReuse env) ∧
      (∀ c, s.r.command = some c → Exited s.r = false → s.r.status ≠ "starting" →
        Run fuel env s = some { cmd := some c, err := none, st := s })) := by
  have hiff : needsRefresh env s.r = true ↔
      ∃ info, Info env s.r = Except.ok info ∧ s.r.starttime < info.modTime := by
    unfold needsRefresh
    cases hi : Info env s.r with
    | error e => simp
    | ok info => simp
  refine ⟨hiff, fun h => ?_⟩
  have hfalse : needsRefresh env s.r = false := by
    cases hn : needsRefresh env s.r with
    | false => rfl
    | true =>
      obtain ⟨info, hi, hlt⟩ := hiff.1 hn
      rcases h with ⟨e, he⟩ | ⟨info2, hi2, hle⟩
      · rw [hi] at he
        exact Except.noConfusion he
      · rw [hi] at hi2
        have heq : info = info2 := Except.ok.inj hi2
        rw [heq] at hlt
        exact absurd hlt (Nat.not_lt.mpr hle)
  have hrefresh := refresh_of_not_stale env s hfalse
  refine ⟨hfalse, hrefresh, ?_, ?_⟩
  · unfold Run
    rw [hrefresh]
    cases pollStarting fuel s <;> rfl
  · intro c hc hex hst
    rw [Run_of_not_starting fuel env s hst, hrefresh, launchOrReuse_reuse env s, hc]
    intro hor
    rcases hor with hn | he
    · rw [hc] at hn
      exact Option.noConfusion hn
    · rw [hex] at he
      exact Bool.noConfusion he

/-- Witness for C10: with the binary missing, and with a binary as old as the
start time, the running child is kept and returned. -/
theorem needsRefresh_iff_and_keeps_process_witness :
    Run 0 envMissing running = some { cmd := running.r.command, err := none, st := running } ∧
    Run 0 (envOk 100) running = some { cmd := running.r.command, err := none, st := running } :=
  ⟨((needsRefresh_iff_and_keeps_process 0 envMissing running).2
      (Or.inl ⟨_, rfl⟩)).2.2.2 _ rfl rfl (by decide),
   ((needsRefresh_iff_and_keeps_process 0 (envOk 100) running).2
      (Or.inr ⟨{ modTime := 100 }, rfl, by decide⟩)).2.2.2 _ rfl rfl (by decide)⟩

/-! ## The status between calls -/

theorem settled_ne_starting (status : String) (h : settled status) :
    status ≠ "starting" := by
  rcases h with h | h | h <;> rw [h] <;> decide

theorem reap_status (ps : ProcessState) (s : State) :
    (reap ps s).r.status = s.r.status := by
  unfold reap
  cases s.r.command with
  | none => rfl
  | some c => cases hp : c.process <;> simp [hp]

theorem runBin_settled (env : Env) (s : State) : settled (runBin env s).2.r.status := by
  rcases runBin_status env s with h | h
  · exact Or.inr (Or.inl h)
  · exact Or.inr (Or.inr h)

theorem launchOrReuse_settled (env : Env) (s : State) (h : settled s.r.status) :
    settled (launchOrReuse env s).st.r.status := by
  by_cases hl : s.r.command = none ∨ Exited s.r = true
  · rw [launchOrReuse_launch env s hl]
    exact runBin_settled env s
  · rw [launchOrReuse_reuse env s hl]
    exact h

theorem step_settled (env : Env) (a : Action) (s s2 : State)
    (h : settled s.r.status) (hs : step env a s = some s2) : settled s2.r.status := by
  cases a with
  | run fuel =>
    simp only [step] at hs
    cases hr : Run fuel env s with
    | none => simp [hr] at hs
    | some res =>
      simp [hr] at hs
      obtain ⟨-, hres⟩ := Run_some fuel env s res hr
      rw [← hs, hres]
      apply launchOrReuse_settled
      rw [refresh_status]
      exact h
  | kill =>
    simp only [step, Option.some.injEq] at hs
    rw [← hs, Kill_status]
    exact h
  | setWriter writer =>
    simp only [step, Option.some.injEq] at hs
    rw [← hs]
    exact h
  | info =>
    simp only [step, Option.some.injEq] at hs
    rw [← hs]
    exact h
  | reaped ps =>
    simp only [step, Option.some.injEq] at hs
    rw [← hs, reap_status]
    exact h

theorem steps_settled (calls : List (Action × Env)) (s s2 : State)
    (h : settled s.r.status) (hs : steps calls s = some s2) : settled s2.r.status := by
  induction calls generalizing s with
  | nil =>
    simp only [steps, Option.some.injEq] at hs
    rw [← hs]
    exact h
  | cons call rest ih =>
    obtain ⟨a, env⟩ := call
    simp only [steps] at hs
    cases hstep : step env a s with
    | none => simp [hstep] at hs
    | some s1 =>
      simp only [hstep] at hs
      exact ih s1 (step_settled env a s s1 h hstep) hs

/-- C9: in every state reachable from `NewRunner` by completed `Run`, `Kill`,
`SetWriter` and `Info` calls (and the reaper finishing), under every OS
outcome, status is `new`, `up` or `error` and not `starting`; `runBin` never
returns with status `starting`; so the polling loop of `Run` leaves at its
first test, even with no iteration allowed, and `Run` returns. -/
theorem reachable_status_settled (s : State) (h : Reachable s) :
    settled s.r.status ∧ s.r.status ≠ "starting" ∧
    (∀ env s0, (runBin env s0).2.r.status ≠ "starting") ∧
    (∀ fuel env, pollStarting fuel (refresh env s) = some (refresh env s) ∧
      Run fuel env s = some (launchOrReuse env (refresh env s))) := by
  obtain ⟨now, bin, args, calls, hsteps⟩ := h
  have hinit : settled (NewRunner now bin args).r.status := Or.inl rfl
  have hset := steps_settled calls _ s hinit hsteps
  have hne := settled_ne_starting _ hset
  refine ⟨hset, hne, fun env s0 => settled_ne_starting _ (runBin_settled env s0), ?_⟩
  intro fuel env
  refine ⟨pollStarting_of_ne fuel _ ?_, Run_of_not_starting fuel env s hne⟩
  rw [refresh_status]
  exact hne

/-- Witness for C9: the state a new runner is in after its first `Run`, which
started the child. -/
theorem reachable_status_settled_witness :
    settled (launchOrReuse (envOk 5) fresh).st.r.status ∧
    (launchOrReuse (envOk 5) fresh).st.r.status ≠ "starting" ∧
    (∀ env s0, (runBin env s0).2.r.status ≠ "starting") ∧
    (∀ fuel env,
      pollStarting fuel (refresh env (launchOrReuse (envOk 5) fresh).st) =
        some (refresh env (launchOrReuse (envOk 5) fresh).st) ∧
      Run fuel env (launchOrReuse (envOk 5) fresh).st =
        some (launchOrReuse env (refresh env (launchOrReuse (envOk 5) fresh).st))) :=
  reachable_status_settled _
    ⟨10, "./app", ["-p", "3000"], [(Action.run 0, envOk 5)], rfl⟩

end Gin
